import Mathlib

/-!
Verification of the recommendation scoring engine of the
`test-recommendation-engine` repository against its natural-language
specification.

Modelling conventions (shallow embedding):
* JavaScript numbers are modelled by exact arithmetic: stored scalars
  (trait values, weights, embedding components, JSON numeric literals) are
  rationals (`ℚ`), and every quantity whose computation involves a square
  root (cosine similarity and everything downstream of it) lives in `ℝ`.
  IEEE doubles are rationals, so `ℚ` represents stored values exactly; the
  spec's tolerance disclaimers concern rounding only, which this exact
  model abstracts away.
* Fallible operations return `Except` (a thrown `Error`) or `Option`
  (a `null` return).
* The embedding collaborator is a function parameter `gen : String → List ℚ`;
  the orchestrator's output carries the list of prompts it sent to the
  collaborator (`genCalls`), which records whether and how often
  `generateEmbedding` was invoked during the call.
* Database state (Prisma) is an explicit record of lists.
-/

namespace RecEngine

/-! ## src/common/vector.utils.ts -/

/-- The single loop of `cosineSimilarity` (src/common/vector.utils.ts,
lines 10–14): accumulates `(dot, normA, normB)` over the paired components.
The source loops index-wise over equal-length arrays; this recursion visits
the same pairs, and exact rational addition makes the accumulation order
irrelevant. -/
def simSums : List ℚ → List ℚ → ℚ × ℚ × ℚ
  | a :: as, b :: bs =>
    let s := simSums as bs
    (s.1 + a * b, s.2.1 + a * a, s.2.2 + b * b)
  | _, _ => (0, 0, 0)

/-- `cosineSimilarity` (src/common/vector.utils.ts, lines 1–21): returns 0
for an empty operand, a length mismatch, or a zero squared norm; otherwise
the dot product divided by the product of the L2 norms. -/
noncomputable def cosineSimilarity (a b : List ℚ) : ℝ :=
  if a = [] ∨ b = [] ∨ a.length ≠ b.length then 0
  else
    let s := simSums a b
    if s.2.1 = 0 ∨ s.2.2 = 0 then 0
    else (s.1 : ℝ) / (Real.sqrt (s.2.1 : ℚ) * Real.sqrt (s.2.2 : ℚ))

/-- `Math.max(...values)` as `normalizeVector` uses it. For the empty list
JavaScript yields `-Infinity`, and `normalizeVector` then maps over an empty
array, producing `[]` either way; returning 0 for `[]` keeps the model total
and gives the same `normalizeVector` output on every input. -/
def listMax : List ℚ → ℚ
  | [] => 0
  | v :: vs => vs.foldl max v

/-- `normalizeVector` (src/common/vector.utils.ts, lines 23–29): divide every
component by the maximum component; if the maximum is 0, return all zeros. -/
def normalizeVector (values : List ℚ) : List ℚ :=
  if listMax values = 0 then values.map fun _ => 0
  else values.map fun v => v / listMax values

/-- `computeTraitSimilarity` (src/recommendations/recommendations.service.ts,
lines 202–209): cosine similarity of the max-normalized vectors. -/
noncomputable def computeTraitSimilarity (userVector vendorVector : List ℚ) : ℝ :=
  cosineSimilarity (normalizeVector userVector) (normalizeVector vendorVector)

/-! ### Helper lemmas about the similarity loop -/

/-- Squared-component sum, the `normA`/`normB` of the source loop written as
a standard list sum. -/
def sqSum (v : List ℚ) : ℚ := (v.map fun x => x * x).sum

/-- Dot product written as a standard list sum. -/
def dotSum (a b : List ℚ) : ℚ := (List.zipWith (· * ·) a b).sum

theorem simSums_eq_sums : ∀ (a b : List ℚ), a.length = b.length →
    simSums a b = (dotSum a b, sqSum a, sqSum b)
  | [], [], _ => by simp [simSums, dotSum, sqSum]
  | x :: xs, y :: ys, h => by
    have hlen : xs.length = ys.length := by simpa using h
    have ih := simSums_eq_sums xs ys hlen
    simp only [simSums, ih, dotSum, sqSum, List.zipWith_cons_cons, List.map_cons,
      List.sum_cons, Prod.mk.injEq]
    exact ⟨by ring, by ring, by ring⟩

theorem simSums_swap : ∀ (a b : List ℚ),
    simSums b a = ((simSums a b).1, (simSums a b).2.2, (simSums a b).2.1)
  | [], [] => rfl
  | [], _ :: _ => rfl
  | _ :: _, [] => rfl
  | x :: xs, y :: ys => by
    have ih := simSums_swap xs ys
    simp [simSums, ih, Prod.mk.injEq, mul_comm]

/-- C5. `cosineSimilarity` returns exactly 0 when either vector is empty,
when the vectors differ in length, or when either squared norm is 0; in all
remaining cases it returns the dot product divided by the product of the L2
norms. In this exact-real model every returned value is a (finite) real
number, so no NaN or infinite result can arise. -/
theorem cosineSimilarity_spec (a b : List ℚ) :
    ((a = [] ∨ b = [] ∨ a.length ≠ b.length) → cosineSimilarity a b = 0) ∧
    ((sqSum a = 0 ∨ sqSum b = 0) → cosineSimilarity a b = 0) ∧
    (a ≠ [] → b ≠ [] → a.length = b.length → sqSum a ≠ 0 → sqSum b ≠ 0 →
      cosineSimilarity a b =
        (dotSum a b : ℝ) / (Real.sqrt (sqSum a : ℚ) * Real.sqrt (sqSum b : ℚ))) := by
  refine ⟨fun h => ?_, fun h => ?_, fun ha hb hlen hna hnb => ?_⟩
  · simp only [cosineSimilarity, if_pos h]
  · by_cases hdeg : a = [] ∨ b = [] ∨ a.length ≠ b.length
    · simp only [cosineSimilarity, if_pos hdeg]
    · have hlen : a.length = b.length := by
        rcases not_or.mp hdeg with ⟨_, h2⟩
        rcases not_or.mp h2 with ⟨_, h3⟩
        exact not_not.mp h3
      have hs := simSums_eq_sums a b hlen
      simp only [cosineSimilarity, if_neg hdeg, hs]
      simp [h]
  · have hs := simSums_eq_sums a b hlen
    have hdeg : ¬(a = [] ∨ b = [] ∨ a.length ≠ b.length) := by
      push_neg
      exact ⟨ha, hb, hlen⟩
    simp only [cosineSimilarity, if_neg hdeg, hs]
    simp [hna, hnb]

/-- Witness for C5 at the concrete vectors `[1]` and `[2]`: all three
degenerate-case hypotheses of the main branch are discharged concretely. -/
theorem cosineSimilarity_spec_witness :
    ([1] : List ℚ) ≠ [] ∧ ([2] : List ℚ) ≠ [] ∧
      ([1] : List ℚ).length = ([2] : List ℚ).length ∧
      sqSum [1] ≠ 0 ∧ sqSum [2] ≠ 0 ∧
      cosineSimilarity [1] [2] =
        (dotSum [1] [2] : ℝ) /
          (Real.sqrt (sqSum [1] : ℚ) * Real.sqrt (sqSum [2] : ℚ)) := by
  refine ⟨by simp, by simp, by simp, by norm_num [sqSum], by norm_num [sqSum], ?_⟩
  exact (cosineSimilarity_spec [1] [2]).2.2 (by simp) (by simp) (by simp)
    (by norm_num [sqSum]) (by norm_num [sqSum])

/-- C9. Cosine similarity is symmetric in its two arguments. -/
theorem cosineSimilarity_comm (a b : List ℚ) :
    cosineSimilarity a b = cosineSimilarity b a := by
  unfold cosineSimilarity
  rw [simSums_swap a b]
  by_cases hdeg : a = [] ∨ b = [] ∨ a.length ≠ b.length
  · have hdeg2 : b = [] ∨ a = [] ∨ b.length ≠ a.length := by tauto
    rw [if_pos hdeg, if_pos hdeg2]
  · have hdeg2 : ¬(b = [] ∨ a = [] ∨ b.length ≠ a.length) := by tauto
    rw [if_neg hdeg, if_neg hdeg2]
    by_cases hz : (simSums a b).2.1 = 0 ∨ (simSums a b).2.2 = 0
    · have hz2 : (simSums a b).2.2 = 0 ∨ (simSums a b).2.1 = 0 := hz.symm
      rw [if_pos hz, if_pos hz2]
    · have hz2 : ¬((simSums a b).2.2 = 0 ∨ (simSums a b).2.1 = 0) := by tauto
      rw [if_neg hz, if_neg hz2, mul_comm]

/-! ### Facts about `listMax` and `normalizeVector` -/

theorem foldl_max_le_acc (l : List ℚ) (acc : ℚ) : acc ≤ l.foldl max acc := by
  induction l generalizing acc with
  | nil => simp
  | cons x xs ih => exact le_trans (le_max_left _ _) (ih (max acc x))

theorem mem_le_foldl_max (l : List ℚ) (acc : ℚ) : ∀ x ∈ l, x ≤ l.foldl max acc := by
  induction l generalizing acc with
  | nil => intro x hx; cases hx
  | cons y ys ih =>
    intro x hx
    rcases List.mem_cons.mp hx with rfl | hx
    · exact le_trans (le_max_right acc x) (foldl_max_le_acc ys _)
    · exact ih _ x hx

theorem mem_le_listMax (v : List ℚ) : ∀ x ∈ v, x ≤ listMax v := by
  cases v with
  | nil => intro x hx; cases hx
  | cons y ys =>
    intro x hx
    rcases List.mem_cons.mp hx with rfl | hx
    · exact foldl_max_le_acc ys x
    · exact mem_le_foldl_max ys y x hx

theorem foldl_max_zeros (l : List ℚ) : (l.map fun _ => (0 : ℚ)).foldl max 0 = 0 := by
  induction l with
  | nil => rfl
  | cons y ys ih => simpa using ih

theorem listMax_zeros (v : List ℚ) : listMax (v.map fun _ => (0 : ℚ)) = 0 := by
  cases v with
  | nil => rfl
  | cons y ys => simpa [listMax] using foldl_max_zeros ys

/-- C6 (amended). `normalizeVector` divides every component by the maximum
component and returns all zeros when the maximum is 0; the result's
components are all at most 1 whenever the maximum component is nonnegative
(in particular for every vector of nonnegative components, which covers all
trait vectors); and the zero vector is a fixed point. (For a vector whose
components are all negative the at-most-1 bound fails, see the
counterexample.) -/
theorem normalizeVector_spec (v : List ℚ) :
    (listMax v = 0 → normalizeVector v = v.map fun _ => 0) ∧
    (listMax v ≠ 0 → normalizeVector v = v.map fun x => x / listMax v) ∧
    (0 ≤ listMax v → ∀ x ∈ normalizeVector v, x ≤ 1) ∧
    normalizeVector (v.map fun _ => 0) = v.map fun _ => 0 := by
  refine ⟨fun h0 => by simp [normalizeVector, h0], fun hne => by simp [normalizeVector, hne],
    fun hnn x hx => ?_, ?_⟩
  · by_cases h0 : listMax v = 0
    · simp only [normalizeVector, if_pos h0, List.mem_map] at hx
      obtain ⟨w, _, rfl⟩ := hx
      norm_num
    · have hpos : 0 < listMax v := lt_of_le_of_ne hnn (Ne.symm h0)
      simp only [normalizeVector, if_neg h0, List.mem_map] at hx
      obtain ⟨w, hw, rfl⟩ := hx
      exact (div_le_one hpos).mpr (mem_le_listMax v w hw)
  · simp [normalizeVector, listMax_zeros, List.map_map, Function.comp]

/-- Witness for C6 at the concrete vector `[1, 4]`: the maximum is nonzero
and nonnegative, the output is the componentwise division, and every output
component is at most 1. -/
theorem normalizeVector_spec_witness :
    listMax [1, 4] ≠ 0 ∧
      normalizeVector [1, 4] = ([1, 4] : List ℚ).map (fun x => x / listMax [1, 4]) ∧
      (0 : ℚ) ≤ listMax [1, 4] ∧ ∀ x ∈ normalizeVector [1, 4], x ≤ 1 := by
  have h := normalizeVector_spec [1, 4]
  have h1 : listMax [1, 4] ≠ 0 := by simp [listMax]
  have h0 : (0 : ℚ) ≤ listMax [1, 4] := by simp [listMax]
  exact ⟨h1, h.2.1 h1, h0, h.2.2.1 h0⟩

/-- Counterexample to C6 as stated: for the all-negative vector `[-1, -2]`
the maximum component is `-1`, the normalized vector is `[1, 2]`, and its
second component exceeds 1, refuting "normalize(v) has max component ≤ 1
for all vectors v". -/
theorem normalizeVector_max_gt_one :
    normalizeVector [-1, -2] = [1, 2] ∧ ¬(∀ x ∈ normalizeVector [-1, -2], x ≤ 1) := by
  have hval : normalizeVector [-1, -2] = [1, 2] := by
    norm_num [normalizeVector, listMax]
  refine ⟨hval, fun hall => ?_⟩
  have := hall 2 (by rw [hval]; simp)
  norm_num at this

/-! ## Behavior scorer (src/recommendations/recommendations.service.ts) -/

/-- The `InteractionSummary` shape the service works with (lines 11–15):
vendor id, liked flag, optional integer rating. -/
structure InteractionSummary where
  vendorId : ℕ
  liked : Bool
  score : Option ℤ
deriving DecidableEq

/-- The parameter record of `computeBehaviorScoreForVendor`
(lines 211–220). The `Map<number, number[]>` of liked vendors' trait
vectors is modelled as an association list with unique keys (the builder
inserts each vendor id at most once). -/
structure BehaviorParams where
  vendorId : ℕ
  userInteractions : List InteractionSummary
  vendorTraitVector : List ℚ
  likedVendorsTraitMap : List (ℕ × List ℚ)

/-- `computeBehaviorScoreForVendor` (lines 211–256): direct score 1 for a
found liked interaction with this vendor, else 0; plus 0.4 times the sum of
trait-similarities to liked vendors with a known trait vector divided by the
number of liked interactions (the `continue` for an unknown vector
contributes 0 to the total but still counts in the denominator). -/
noncomputable def computeBehaviorScoreForVendor (p : BehaviorParams) : ℝ :=
  let interaction := p.userInteractions.find? fun i => i.vendorId == p.vendorId
  let directScore : ℝ :=
    match interaction with
    | some i => if i.liked then 1 else 0
    | none => 0
  let likedVendors := p.userInteractions.filter fun i => i.liked
  let similarityAggregate : ℝ :=
    if 0 < likedVendors.length then
      (likedVendors.map fun liked =>
        match p.likedVendorsTraitMap.lookup liked.vendorId with
        | some likedVector => computeTraitSimilarity p.vendorTraitVector likedVector
        | none => 0).sum / (likedVendors.length : ℝ)
    else 0
  0.6 * directScore + 0.4 * similarityAggregate

/-- The behavior score exactly as claim C1 (spec §4.3) words it, for
comparison with the code: the collaborative aggregate averages the
similarities over the liked vendors *whose trait vector is available*
(denominator = number of resolvable liked vendors), with 0 when there are
none. This definition follows the claim's words, not the source. -/
noncomputable def specBehaviorScoreForVendor (p : BehaviorParams) : ℝ :=
  let directScore : ℝ :=
    if ∃ i ∈ p.userInteractions, i.vendorId = p.vendorId ∧ i.liked = true then 1 else 0
  let sims := (p.userInteractions.filter fun i => i.liked).filterMap fun i =>
    (p.likedVendorsTraitMap.lookup i.vendorId).map fun likedVector =>
      computeTraitSimilarity p.vendorTraitVector likedVector
  let aggregate : ℝ := if sims.length = 0 then 0 else sims.sum / (sims.length : ℝ)
  0.6 * directScore + 0.4 * aggregate

/-- C1 (amended). Under the data-model invariant that a user has at most one
interaction per vendor (§3: the pair is unique), the behavior score is
`0.6 * directScore + 0.4 * aggregate` where `directScore` is 1 exactly when
a liked interaction for the target vendor exists (the rating is never used),
and the aggregate is the sum of trait-similarities to the liked vendors
whose trait vector is available divided by the number of ALL liked
interactions (division by zero yielding 0 covers the no-liked case). -/
theorem computeBehaviorScoreForVendor_spec (p : BehaviorParams)
    (hnd : (p.userInteractions.map fun i => i.vendorId).Nodup) :
    computeBehaviorScoreForVendor p =
      0.6 * (if ∃ i ∈ p.userInteractions, i.vendorId = p.vendorId ∧ i.liked = true
        then 1 else 0)
      + 0.4 * (((p.userInteractions.filter fun i => i.liked).map fun i =>
            match p.likedVendorsTraitMap.lookup i.vendorId with
            | some likedVector => computeTraitSimilarity p.vendorTraitVector likedVector
            | none => 0).sum
          / ((p.userInteractions.filter fun i => i.liked).length : ℝ)) := by
  have hdirect :
      (match p.userInteractions.find? fun i => i.vendorId == p.vendorId with
        | some i => if i.liked then (1 : ℝ) else 0
        | none => 0) =
      (if ∃ i ∈ p.userInteractions, i.vendorId = p.vendorId ∧ i.liked = true
        then (1 : ℝ) else 0) := by
    cases hfind : p.userInteractions.find? fun i => i.vendorId == p.vendorId with
    | none =>
      have hno := List.find?_eq_none.mp hfind
      have : ¬∃ i ∈ p.userInteractions, i.vendorId = p.vendorId ∧ i.liked = true := by
        rintro ⟨i, hi, hv, _⟩
        exact absurd (beq_iff_eq.mpr hv) (by simpa using hno i hi)
      simp [this]
    | some i =>
      have hv : i.vendorId = p.vendorId := by
        have := List.find?_some hfind
        exact beq_iff_eq.mp this
      have hmem : i ∈ p.userInteractions := List.mem_of_find?_eq_some hfind
      by_cases hl : i.liked = true
      · have : ∃ j ∈ p.userInteractions, j.vendorId = p.vendorId ∧ j.liked = true :=
          ⟨i, hmem, hv, hl⟩
        simp [this, hl]
      · have hnone : ¬∃ j ∈ p.userInteractions, j.vendorId = p.vendorId ∧ j.liked = true := by
          rintro ⟨j, hj, hjv, hjl⟩
          have hij : i = j :=
            List.inj_on_of_nodup_map hnd hmem hj (by rw [hv, hjv])
          exact hl (hij ▸ hjl)
        simp [hnone, hl]
  have hagg :
      (if 0 < (p.userInteractions.filter fun i => i.liked).length then
        ((p.userInteractions.filter fun i => i.liked).map fun liked =>
          match p.likedVendorsTraitMap.lookup liked.vendorId with
          | some likedVector => computeTraitSimilarity p.vendorTraitVector likedVector
          | none => 0).sum / (((p.userInteractions.filter fun i => i.liked).length : ℕ) : ℝ)
      else 0) =
      ((p.userInteractions.filter fun i => i.liked).map fun i =>
          match p.likedVendorsTraitMap.lookup i.vendorId with
          | some likedVector => computeTraitSimilarity p.vendorTraitVector likedVector
          | none => 0).sum / (((p.userInteractions.filter fun i => i.liked).length : ℕ) : ℝ) := by
    by_cases hpos : 0 < (p.userInteractions.filter fun i => i.liked).length
    · rw [if_pos hpos]
    · have hzero : (p.userInteractions.filter fun i => i.liked).length = 0 :=
        Nat.eq_zero_of_not_pos hpos
      rw [if_neg hpos, hzero]
      simp
  simp only [computeBehaviorScoreForVendor]
  rw [hdirect, hagg]

/-- Witness for C1's amended theorem at the empty interaction list (vendor
ids trivially unique). -/
theorem computeBehaviorScoreForVendor_spec_witness :
    ((([] : List InteractionSummary)).map fun i => i.vendorId).Nodup ∧
      computeBehaviorScoreForVendor ⟨0, [], [], []⟩ =
        0.6 * (if ∃ i ∈ ([] : List InteractionSummary), i.vendorId = 0 ∧ i.liked = true
          then 1 else 0)
        + 0.4 * (((([] : List InteractionSummary).filter fun i => i.liked).map fun i =>
              match ([] : List (ℕ × List ℚ)).lookup i.vendorId with
              | some likedVector => computeTraitSimilarity [] likedVector
              | none => 0).sum
            / ((([] : List InteractionSummary).filter fun i => i.liked).length : ℝ)) :=
  ⟨by simp, computeBehaviorScoreForVendor_spec ⟨0, [], [], []⟩ (by simp)⟩

/-- The trait-similarity of the one-component vector `[1]` with itself is 1. -/
theorem traitSim_single_one : computeTraitSimilarity [1] [1] = 1 := by
  have hnorm : normalizeVector [1] = [1] := by norm_num [normalizeVector, listMax]
  unfold computeTraitSimilarity
  rw [hnorm]
  unfold cosineSimilarity
  norm_num [simSums, Real.sqrt_one]

/-- Counterexample to C1 as stated: a user with two liked interactions
(vendors 1 and 2) of which only vendor 1 has a trait vector in the map. The
code divides the one available similarity (which is 1) by 2 — the number of
liked interactions — giving behavior score 0.2, while the claim's average
over available vectors gives 0.4. -/
theorem behaviorScore_denominator_counterexample :
    computeBehaviorScoreForVendor ⟨3, [⟨1, true, none⟩, ⟨2, true, none⟩], [1], [(1, [1])]⟩ ≠
      specBehaviorScoreForVendor ⟨3, [⟨1, true, none⟩, ⟨2, true, none⟩], [1], [(1, [1])]⟩ := by
  have hm : computeBehaviorScoreForVendor
      ⟨3, [⟨1, true, none⟩, ⟨2, true, none⟩], [1], [(1, [1])]⟩ = 1/5 := by
    simp [computeBehaviorScoreForVendor, List.find?, List.filter, List.lookup,
      traitSim_single_one]
    norm_num
  have hs : specBehaviorScoreForVendor
      ⟨3, [⟨1, true, none⟩, ⟨2, true, none⟩], [1], [(1, [1])]⟩ = 2/5 := by
    simp [specBehaviorScoreForVendor, List.filter, List.filterMap, List.lookup,
      traitSim_single_one]
    norm_num
  rw [hm, hs]
  norm_num

/-! ## Weight normalizer (recommendations.service.ts, lines 50–54 and 296–308) -/

/-- A raw or normalized weight triple. -/
structure Weights where
  embedding : ℚ
  traits : ℚ
  behavior : ℚ
deriving DecidableEq

/-- `defaultWeights` (lines 50–54): embedding 0.5, traits 0.3, behavior 0.2. -/
def defaultWeights : Weights := ⟨1/2, 3/10, 1/5⟩

/-- Lines 302–308: `weights.embedding + weights.traits + weights.behavior || 1`
followed by the componentwise division. The JavaScript `|| 1` replaces a
falsy (zero) sum by 1. -/
def normalizeWeights (w : Weights) : Weights :=
  let weightSum := if w.embedding + w.traits + w.behavior = 0 then 1
    else w.embedding + w.traits + w.behavior
  ⟨w.embedding / weightSum, w.traits / weightSum, w.behavior / weightSum⟩

/-- C3. For raw weights each in [0,1]: when the sum is positive each output
equals the raw weight divided by the sum and the outputs sum to 1; when the
sum is 0 the divisor is 1, so the weights pass through unchanged and no
division by zero occurs. -/
theorem normalizeWeights_spec (e t b : ℚ)
    (he0 : 0 ≤ e) (he1 : e ≤ 1) (ht0 : 0 ≤ t) (ht1 : t ≤ 1)
    (hb0 : 0 ≤ b) (hb1 : b ≤ 1) :
    (0 < e + t + b →
      normalizeWeights ⟨e, t, b⟩ = ⟨e / (e + t + b), t / (e + t + b), b / (e + t + b)⟩ ∧
      (normalizeWeights ⟨e, t, b⟩).embedding + (normalizeWeights ⟨e, t, b⟩).traits +
        (normalizeWeights ⟨e, t, b⟩).behavior = 1) ∧
    (e + t + b = 0 → normalizeWeights ⟨e, t, b⟩ = ⟨e, t, b⟩) := by
  constructor
  · intro hpos
    have hne : e + t + b ≠ 0 := ne_of_gt hpos
    constructor
    · simp [normalizeWeights, hne]
    · simp only [normalizeWeights, if_neg hne]
      field_simp
  · intro hzero
    simp [normalizeWeights, hzero]

/-- Witness for C3 at the default weight triple (0.5, 0.3, 0.2): positive
sum, outputs sum to 1. -/
theorem normalizeWeights_spec_witness :
    (0 : ℚ) ≤ 1/2 ∧ (1/2 : ℚ) ≤ 1 ∧ (0 : ℚ) ≤ 3/10 ∧ (3/10 : ℚ) ≤ 1 ∧
      (0 : ℚ) ≤ 1/5 ∧ (1/5 : ℚ) ≤ 1 ∧ (0 : ℚ) < 1/2 + 3/10 + 1/5 ∧
      (normalizeWeights ⟨1/2, 3/10, 1/5⟩).embedding +
        (normalizeWeights ⟨1/2, 3/10, 1/5⟩).traits +
        (normalizeWeights ⟨1/2, 3/10, 1/5⟩).behavior = 1 := by
  refine ⟨by norm_num, by norm_num, by norm_num, by norm_num, by norm_num, by norm_num,
    by norm_num, ?_⟩
  exact ((normalizeWeights_spec (1/2) (3/10) (1/5) (by norm_num) (by norm_num)
    (by norm_num) (by norm_num) (by norm_num) (by norm_num)).1 (by norm_num)).2

/-! ## Data model (Prisma entities as the service reads them) -/

/-- The `BehaviorPreferences` structure (src/users/users.service.ts,
lines 35–39): optional notes, optional recent-pattern text, optional
vendor-trait-weight mapping (values bounded [0,1] by the schema). -/
structure BehaviorPrefs where
  notes : Option String := none
  recentPattern : Option String := none
  vendorTraitWeights : Option (List (String × ℚ)) := none
deriving DecidableEq

/-- Stand-in for `JSON.stringify(behaviorPreferences)` in the prompt text.
No claim inspects prompt contents; only that a prompt-keyed call happened. -/
def renderBehaviorPrefs (b : BehaviorPrefs) : String :=
  "notes:" ++ toString b.notes ++ ",recentPattern:" ++ toString b.recentPattern
    ++ ",vendorTraitWeights:"
    ++ toString ((b.vendorTraitWeights.getD []).map fun p => p.1 ++ ":" ++ toString p.2)

/-- The nine personality-trait scalars in the fixed order of the code. -/
structure TraitSet where
  adventurous : ℚ
  decisive : ℚ
  eccentric : ℚ
  flexible : ℚ
  loyal : ℚ
  optimistic : ℚ
  patient : ℚ
  perfectionist : ℚ
  punctual : ℚ
deriving DecidableEq

/-- The twelve vendor service-trait scalars. -/
structure VendorTraitSet where
  serviceQuality : ℚ
  interactionStyle : ℚ
  serviceConduct : ℚ
  expertise : ℚ
  environment : ℚ
  atmosphere : ℚ
  design : ℚ
  hospitality : ℚ
  outcomeQuality : ℚ
  waitingTime : ℚ
  physicalElements : ℚ
  experienceTone : ℚ
deriving DecidableEq

/-- A stored user with interactions, as `prisma.user.findUnique` with
`include: { interactions: true }` materializes it. -/
structure User where
  id : ℕ
  name : String
  traits : TraitSet
  embedding : List ℚ
  behaviorPreferences : Option BehaviorPrefs
  isTestUser : Bool
  interactions : List InteractionSummary
deriving DecidableEq

/-- A stored vendor (`VendorWithTraitsAndEmbedding`, lines 17–34). The
included vendor interactions are loaded by the service but never read, so
they are omitted here. -/
structure Vendor where
  id : ℕ
  name : String
  description : Option String
  embedding : List ℚ
  traits : VendorTraitSet
deriving DecidableEq

/-- The storage collaborator's state: the user and vendor tables. -/
structure Db where
  users : List User
  vendors : List Vendor

/-- `prisma.user.findUnique({ where: { id }, include: { interactions } })`
(lines 266–269). -/
def findUserWithInteractions (db : Db) (userId : ℕ) : Option User :=
  db.users.find? fun u => u.id == userId

/-- `getUserTraitVector` (lines 111–133): the 9 traits in fixed order. -/
def getUserTraitVector (t : TraitSet) : List ℚ :=
  [t.adventurous, t.decisive, t.eccentric, t.flexible, t.loyal, t.optimistic,
    t.patient, t.perfectionist, t.punctual]

/-- `getVendorTraitVector` (lines 135–163): the 12 traits in fixed order. -/
def getVendorTraitVector (t : VendorTraitSet) : List ℚ :=
  [t.serviceQuality, t.interactionStyle, t.serviceConduct, t.expertise,
    t.environment, t.atmosphere, t.design, t.hospitality, t.outcomeQuality,
    t.waitingTime, t.physicalElements, t.experienceTone]

/-! ## Adjustments (`adjustmentsSchema`, lines 56–77) -/

/-- The parsed shape of the adjustments object: every field independently
optional — nine trait overrides, three weight overrides, one
behavior-preferences override. -/
structure AdjustmentsFields where
  adventurous : Option ℚ := none
  decisive : Option ℚ := none
  eccentric : Option ℚ := none
  flexible : Option ℚ := none
  loyal : Option ℚ := none
  optimistic : Option ℚ := none
  patient : Option ℚ := none
  perfectionist : Option ℚ := none
  punctual : Option ℚ := none
  embeddingWeight : Option ℚ := none
  traitWeight : Option ℚ := none
  behaviorWeight : Option ℚ := none
  behaviorPreferences : Option BehaviorPrefs := none
deriving DecidableEq

/-- The raw adjustments payload before validation: either text that
`JSON.parse` / the structural part of `adjustmentsSchema.parse` rejects
(invalid JSON or wrong types), or a structurally well-formed object whose
numeric range checks are still pending. -/
inductive AdjustmentsRaw where
  | malformed (msg : String)
  | obj (fields : AdjustmentsFields)
deriving DecidableEq

/-- One zod range check `z.number().min(lo).max(hi).optional()`. -/
def rangeOk (x : Option ℚ) (lo hi : ℚ) : Bool :=
  match x with
  | none => true
  | some q => decide (lo ≤ q) && decide (q ≤ hi)

/-- `behaviorPreferencesSchema`: vendor-trait weights each in [0,1]. -/
def behaviorPrefsOk (b : BehaviorPrefs) : Bool :=
  match b.vendorTraitWeights with
  | none => true
  | some l => l.all fun p => decide (0 ≤ p.2) && decide (p.2 ≤ 1)

/-- The numeric bounds of `adjustmentsSchema`: trait overrides in [0,5],
weight overrides in [0,1], behavior preferences schema-valid. -/
def adjustmentsFieldsOk (f : AdjustmentsFields) : Bool :=
  rangeOk f.adventurous 0 5 && rangeOk f.decisive 0 5 && rangeOk f.eccentric 0 5 &&
  rangeOk f.flexible 0 5 && rangeOk f.loyal 0 5 && rangeOk f.optimistic 0 5 &&
  rangeOk f.patient 0 5 && rangeOk f.perfectionist 0 5 && rangeOk f.punctual 0 5 &&
  rangeOk f.embeddingWeight 0 1 && rangeOk f.traitWeight 0 1 &&
  rangeOk f.behaviorWeight 0 1 &&
  (match f.behaviorPreferences with
   | none => true
   | some b => behaviorPrefsOk b)

/-- `JSON.parse` + `adjustmentsSchema.parse` wrapped in the try/catch of
lines 275–282: any failure becomes the thrown `Invalid adjustments` error. -/
def parseAdjustments : AdjustmentsRaw → Except String AdjustmentsFields
  | AdjustmentsRaw.malformed msg => Except.error ("Invalid adjustments: " ++ msg)
  | AdjustmentsRaw.obj f =>
    if adjustmentsFieldsOk f then Except.ok f
    else Except.error ("Invalid adjustments: adjustments do not conform to the schema")

/-- Lines 274–282 as a whole: an absent (or empty-string, hence falsy)
`adjustmentsRaw` leaves `adjustments` undefined; a present one is parsed
and validated, errors propagating. -/
def parseAdjustmentsOpt : Option AdjustmentsRaw → Except String (Option AdjustmentsFields)
  | none => Except.ok none
  | some raw => (parseAdjustments raw).map some

/-! ## Prompt builders (lines 86–109 and 165–200) -/

/-- `buildUserPromptFromTraits` (lines 86–109): the behavior-preferences
line is present exactly when preferences are (the `filter(Boolean)` drops
the empty string). -/
def buildUserPromptFromTraits (name : String) (t : TraitSet)
    (bp : Option BehaviorPrefs) : String :=
  String.intercalate ("\n")
    (["User: " ++ name,
      "Personality traits:",
      "Adventurous: " ++ toString t.adventurous,
      "Decisive: " ++ toString t.decisive,
      "Eccentric: " ++ toString t.eccentric,
      "Flexible: " ++ toString t.flexible,
      "Loyal: " ++ toString t.loyal,
      "Optimistic: " ++ toString t.optimistic,
      "Patient: " ++ toString t.patient,
      "Perfectionist: " ++ toString t.perfectionist,
      "Punctual: " ++ toString t.punctual] ++
     match bp with
     | some b => ["Behavior preferences: " ++ renderBehaviorPrefs b]
     | none => [])

/-- `buildVendorPromptForDebug` (lines 165–200). -/
def buildVendorPromptForDebug (v : Vendor) : String :=
  String.intercalate ("\n")
    (["Vendor: " ++ v.name] ++
     (match v.description with
      | some d => ["Description: " ++ d]
      | none => []) ++
     ["Traits:",
      "Service Quality: " ++ toString v.traits.serviceQuality,
      "Interaction Style: " ++ toString v.traits.interactionStyle,
      "Service Conduct: " ++ toString v.traits.serviceConduct,
      "Expertise: " ++ toString v.traits.expertise,
      "Environment: " ++ toString v.traits.environment,
      "Atmosphere: " ++ toString v.traits.atmosphere,
      "Design: " ++ toString v.traits.design,
      "Hospitality: " ++ toString v.traits.hospitality,
      "Outcome Quality: " ++ toString v.traits.outcomeQuality,
      "Waiting Time: " ++ toString v.traits.waitingTime,
      "Physical Elements: " ++ toString v.traits.physicalElements,
      "Experience Tone: " ++ toString v.traits.experienceTone])

/-! ## Result shapes and sorting (lines 36–48, 397–421) -/

structure ScoreSet where
  embeddingScore : ℝ
  traitScore : ℝ
  behaviorScore : ℝ
  finalScore : ℝ

structure VendorDebug where
  vendorTraitVector : List ℚ
  prompt : String

structure RecommendationItem where
  vendor : Vendor
  scores : ScoreSet
  debug : Option VendorDebug

structure UserDebug where
  userTraitVector : List ℚ
  userEmbeddingLength : ℕ
  adjustments : Option AdjustmentsFields
  prompt : String

structure RecUser where
  id : ℕ
  name : String
  traits : TraitSet
  behaviorPreferences : Option BehaviorPrefs
  weights : Weights
  testMode : Bool
  debug : Option UserDebug

structure RecOutput where
  user : RecUser
  recommendations : List RecommendationItem

/-- One observed call of `computeRecommendations`: the returned value (or
thrown error, or null for an unknown user) together with the list of
prompts sent to the embedding collaborator during the call. -/
structure RecCall where
  result : Except String (Option RecOutput)
  genCalls : List String

noncomputable instance : DecidableRel
    (fun a b : RecommendationItem => b.scores.finalScore ≤ a.scores.finalScore) :=
  fun _ _ => Real.decidableLE _ _

/-- `results.sort((a, b) => b.scores.finalScore - a.scores.finalScore)`
(lines 397–400): a comparator sort into descending final-score order,
modelled by insertion sort under the corresponding total preorder (the
claim under check concerns only the sortedness of the output). -/
noncomputable def sortByFinalScoreDesc (l : List RecommendationItem) :
    List RecommendationItem :=
  List.insertionSort (fun a b => b.scores.finalScore ≤ a.scores.finalScore) l

theorem pairwise_sortByFinalScoreDesc (l : List RecommendationItem) :
    (sortByFinalScoreDesc l).Pairwise
      (fun a b => b.scores.finalScore ≤ a.scores.finalScore) := by
  haveI : IsTotal RecommendationItem
      (fun a b => b.scores.finalScore ≤ a.scores.finalScore) :=
    ⟨fun a b => le_total _ _⟩
  haveI : IsTrans RecommendationItem
      (fun a b => b.scores.finalScore ≤ a.scores.finalScore) :=
    ⟨fun _ _ _ hab hbc => le_trans hbc hab⟩
  exact List.sorted_insertionSort _ l

/-! ## The orchestrator: `computeRecommendations` (lines 258–421) -/

/-- `computeRecommendations`: load the user (null for unknown id), parse and
validate adjustments (throwing before any embedding call), resolve effective
traits / weights / behavior preferences, request a fresh embedding iff
`testMode || adjustments` (note: a parsed adjustments object is truthy even
with no fields), score every vendor, and sort by final score descending.
`genCalls` records the prompts sent to the embedding collaborator. -/
noncomputable def computeRecommendations (db : Db) (userId : ℕ) (testMode : Bool)
    (adjustmentsRaw : Option AdjustmentsRaw) (gen : String → List ℚ)
    (debug : Bool) : RecCall :=
  match findUserWithInteractions db userId with
  | none => { result := Except.ok none, genCalls := [] }
  | some user =>
    match parseAdjustmentsOpt adjustmentsRaw with
    | Except.error msg => { result := Except.error msg, genCalls := [] }
    | Except.ok adjustments =>
      let traits : TraitSet :=
        { adventurous := (adjustments.bind fun a => a.adventurous).getD user.traits.adventurous,
          decisive := (adjustments.bind fun a => a.decisive).getD user.traits.decisive,
          eccentric := (adjustments.bind fun a => a.eccentric).getD user.traits.eccentric,
          flexible := (adjustments.bind fun a => a.flexible).getD user.traits.flexible,
          loyal := (adjustments.bind fun a => a.loyal).getD user.traits.loyal,
          optimistic := (adjustments.bind fun a => a.optimistic).getD user.traits.optimistic,
          patient := (adjustments.bind fun a => a.patient).getD user.traits.patient,
          perfectionist := (adjustments.bind fun a => a.perfectionist).getD user.traits.perfectionist,
          punctual := (adjustments.bind fun a => a.punctual).getD user.traits.punctual }
      let weights : Weights :=
        { embedding := (adjustments.bind fun a => a.embeddingWeight).getD defaultWeights.embedding,
          traits := (adjustments.bind fun a => a.traitWeight).getD defaultWeights.traits,
          behavior := (adjustments.bind fun a => a.behaviorWeight).getD defaultWeights.behavior }
      let normalizedWeights := normalizeWeights weights
      let behaviorPreferences :=
        (adjustments.bind fun a => a.behaviorPreferences).orElse
          fun _ => user.behaviorPreferences
      let userPrompt := buildUserPromptFromTraits user.name traits behaviorPreferences
      let fresh := testMode || adjustments.isSome
      let userEmbedding := if fresh then gen userPrompt else user.embedding
      let genCalls := if fresh then [userPrompt] else []
      let vendors := db.vendors
      let userTraitVector := getUserTraitVector traits
      let likedVendorsTraitMap := vendors.filterMap fun vendor =>
        if user.interactions.any fun i => i.vendorId == vendor.id && i.liked then
          some (vendor.id, getVendorTraitVector vendor.traits)
        else none
      let results := vendors.map fun vendor =>
        let vendorTraitVector := getVendorTraitVector vendor.traits
        let embeddingScore := cosineSimilarity userEmbedding vendor.embedding
        let traitScore := computeTraitSimilarity userTraitVector vendorTraitVector
        let behaviorScore := computeBehaviorScoreForVendor
          ⟨vendor.id, user.interactions, vendorTraitVector, likedVendorsTraitMap⟩
        let finalScore := (normalizedWeights.embedding : ℝ) * embeddingScore
          + (normalizedWeights.traits : ℝ) * traitScore
          + (normalizedWeights.behavior : ℝ) * behaviorScore
        { vendor := vendor,
          scores :=
            { embeddingScore := embeddingScore, traitScore := traitScore,
              behaviorScore := behaviorScore, finalScore := finalScore },
          debug := if debug then
              some { vendorTraitVector := vendorTraitVector,
                     prompt := buildVendorPromptForDebug vendor }
            else none }
      { result := Except.ok (some
          { user :=
              { id := user.id, name := user.name, traits := traits,
                behaviorPreferences := behaviorPreferences,
                weights := normalizedWeights, testMode := testMode,
                debug := if debug then
                    some { userTraitVector := userTraitVector,
                           userEmbeddingLength := userEmbedding.length,
                           adjustments := adjustments, prompt := userPrompt }
                  else none },
            recommendations := sortByFinalScoreDesc results }),
        genCalls := genCalls }

/-! ## Orchestrator theorems -/

/-- C7. For a userId with no stored user, the operation returns the
NotFound result (`null`, here `Except.ok none`) — no exception — and the
embedding collaborator is never called (the early return performs no
scoring work). -/
theorem computeRecommendations_unknown_user (db : Db) (userId : ℕ) (testMode : Bool)
    (adjustmentsRaw : Option AdjustmentsRaw) (gen : String → List ℚ) (debug : Bool)
    (h : findUserWithInteractions db userId = none) :
    (computeRecommendations db userId testMode adjustmentsRaw gen debug).result =
      Except.ok none ∧
    (computeRecommendations db userId testMode adjustmentsRaw gen debug).genCalls = [] := by
  simp [computeRecommendations, h]

/-- Witness for C7: the empty database knows no user 1. -/
theorem computeRecommendations_unknown_user_witness :
    findUserWithInteractions ⟨[], []⟩ 1 = none ∧
      (computeRecommendations ⟨[], []⟩ 1 false none (fun _ => []) false).result =
        Except.ok none ∧
      (computeRecommendations ⟨[], []⟩ 1 false none (fun _ => []) false).genCalls = [] :=
  ⟨rfl, computeRecommendations_unknown_user ⟨[], []⟩ 1 false none (fun _ => []) false rfl⟩

/-- C4. For an existing user and a malformed adjustments payload the
operation fails with the validation error and the embedding collaborator's
`generateEmbedding` is never invoked during the call. -/
theorem computeRecommendations_invalid_adjustments (db : Db) (userId : ℕ)
    (testMode : Bool) (adjustmentsRaw : Option AdjustmentsRaw)
    (gen : String → List ℚ) (debug : Bool) (user : User) (msg : String)
    (hu : findUserWithInteractions db userId = some user)
    (hbad : parseAdjustmentsOpt adjustmentsRaw = Except.error msg) :
    (computeRecommendations db userId testMode adjustmentsRaw gen debug).result =
      Except.error msg ∧
    (computeRecommendations db userId testMode adjustmentsRaw gen debug).genCalls = [] := by
  simp [computeRecommendations, hu, hbad]

/-- A sample stored user for the concrete witnesses. -/
def sampleUser : User :=
  { id := 1, name := "Alice", traits := ⟨3, 3, 3, 3, 3, 3, 3, 3, 3⟩,
    embedding := [1, 0], behaviorPreferences := none, isTestUser := false,
    interactions := [] }

/-- A database holding only `sampleUser`. -/
def dbOneUser : Db := ⟨[sampleUser], []⟩

/-- An adjustments payload with a trait override of 7, outside [0,5]
(spec §8, Scenario C). -/
def badAdjustments : AdjustmentsRaw := AdjustmentsRaw.obj { adventurous := some 7 }

/-- Witness for C4: the out-of-range override is rejected and no embedding
call happens. -/
theorem computeRecommendations_invalid_adjustments_witness :
    findUserWithInteractions dbOneUser 1 = some sampleUser ∧
      parseAdjustmentsOpt (some badAdjustments) =
        Except.error ("Invalid adjustments: adjustments do not conform to the schema") ∧
      (computeRecommendations dbOneUser 1 false (some badAdjustments)
          (fun _ => []) false).result =
        Except.error ("Invalid adjustments: adjustments do not conform to the schema") ∧
      (computeRecommendations dbOneUser 1 false (some badAdjustments)
          (fun _ => []) false).genCalls = [] :=
  ⟨rfl, rfl,
    computeRecommendations_invalid_adjustments dbOneUser 1 false (some badAdjustments)
      (fun _ => []) false sampleUser
      ("Invalid adjustments: adjustments do not conform to the schema") rfl rfl⟩

/-- C2 (amended). For an existing user and a well-parsed adjustments value,
the embedding collaborator is called exactly once iff `testMode` is true or
an adjustments payload was supplied (even one supplying no fields — a parsed
empty object is truthy), and otherwise zero times, in which case the whole
result is independent of the collaborator: the stored embedding is reused
unchanged. -/
theorem computeRecommendations_fresh_embedding (db : Db) (userId : ℕ)
    (testMode : Bool) (adjustmentsRaw : Option AdjustmentsRaw)
    (gen gen2 : String → List ℚ) (debug : Bool) (user : User)
    (adjustments : Option AdjustmentsFields)
    (hu : findUserWithInteractions db userId = some user)
    (hp : parseAdjustmentsOpt adjustmentsRaw = Except.ok adjustments) :
    (computeRecommendations db userId testMode adjustmentsRaw gen debug).genCalls.length =
      (if testMode || adjustments.isSome then 1 else 0) ∧
    ((testMode || adjustments.isSome) = false →
      computeRecommendations db userId testMode adjustmentsRaw gen debug =
        computeRecommendations db userId testMode adjustmentsRaw gen2 debug) := by
  constructor
  · cases hfr : testMode || adjustments.isSome with
    | false => simp [computeRecommendations, hu, hp, hfr]
    | true => simp [computeRecommendations, hu, hp, hfr]
  · intro hfr
    simp [computeRecommendations, hu, hp, hfr]

/-- Witness for C2's amended theorem: no payload and `testMode = false`
means zero collaborator calls and a result independent of the collaborator. -/
theorem computeRecommendations_fresh_embedding_witness :
    findUserWithInteractions dbOneUser 1 = some sampleUser ∧
      parseAdjustmentsOpt none = Except.ok none ∧
      (computeRecommendations dbOneUser 1 false none (fun _ => [1]) false).genCalls.length =
        (if false || (none : Option AdjustmentsFields).isSome then 1 else 0) ∧
      ((false || (none : Option AdjustmentsFields).isSome) = false →
        computeRecommendations dbOneUser 1 false none (fun _ => [1]) false =
          computeRecommendations dbOneUser 1 false none (fun _ => [2]) false) :=
  ⟨rfl, rfl,
    computeRecommendations_fresh_embedding dbOneUser 1 false none (fun _ => [1])
      (fun _ => [2]) false sampleUser none rfl rfl⟩

/-- An adjustments payload that parses to an object with no fields
supplied. -/
def emptyAdjustments : AdjustmentsRaw := AdjustmentsRaw.obj {}

/-- Counterexample to C2 as stated: with `testMode = false` and an
adjustments payload that parses to an object with NO fields supplied, the
code still requests a fresh embedding (one collaborator call), because a
parsed empty object is truthy in `if (testMode || adjustments)` — the
stored embedding is not reused as the claim asserts. -/
theorem emptyAdjustments_fresh_counterexample :
    (computeRecommendations dbOneUser 1 false (some emptyAdjustments)
        (fun _ => []) false).genCalls.length = 1 := by
  rfl

/-- Sortedness of a call result: every successful result's recommendation
list is pairwise descending in `finalScore`; trivially true for the error
and NotFound outcomes, which return no list. -/
def recsSortedDesc : Except String (Option RecOutput) → Prop
  | Except.ok (some r) =>
    r.recommendations.Pairwise fun a b => b.scores.finalScore ≤ a.scores.finalScore
  | _ => True

/-- C8. In every successful result of `computeRecommendations` the
recommendations are sorted by `finalScore` in descending order (every
earlier item's score is ≥ every later item's, so in particular adjacent
pairs are ordered). -/
theorem computeRecommendations_sorted (db : Db) (userId : ℕ) (testMode : Bool)
    (adjustmentsRaw : Option AdjustmentsRaw) (gen : String → List ℚ) (debug : Bool) :
    recsSortedDesc (computeRecommendations db userId testMode adjustmentsRaw gen debug).result := by
  unfold computeRecommendations
  cases hu : findUserWithInteractions db userId with
  | none => simp [recsSortedDesc]
  | some user =>
    cases hp : parseAdjustmentsOpt adjustmentsRaw with
    | error msg => simp [recsSortedDesc]
    | ok adjustments =>
      simp only [recsSortedDesc]
      exact pairwise_sortByFinalScoreDesc _

/-! ## Interactions service (src/interactions/interactions.service.ts) -/

/-- A stored interaction row: unique per (userId, vendorId) pair in the
database schema. -/
structure Interaction where
  userId : ℕ
  vendorId : ℕ
  liked : Bool
  score : Option ℤ
deriving DecidableEq

/-- `InteractionInput` (lines 5–12): the validated body; `score` is the
optional 1..5 integer rating, `none` when omitted. -/
structure InteractionInput where
  userId : ℕ
  vendorId : ℕ
  liked : Bool
  score : Option ℤ
deriving DecidableEq

/-- The tables `upsertInteraction` touches: existing user ids, existing
vendor ids, and the interaction table. -/
structure CatalogDb where
  userIds : List ℕ
  vendorIds : List ℕ
  interactions : List Interaction
deriving DecidableEq

/-- `upsertInteraction` (lines 18–46): `null` when user or vendor is
missing; otherwise a Prisma upsert on the `userId_vendorId` unique key —
update `liked` and `score` (`score ?? null`: an omitted rating is stored as
null) when the row exists, else create it. Returns the resulting record and
the new table state. -/
def upsertInteraction (db : CatalogDb) (input : InteractionInput) :
    Option (Interaction × CatalogDb) :=
  if input.userId ∈ db.userIds ∧ input.vendorId ∈ db.vendorIds then
    let updated : Interaction :=
      { userId := input.userId, vendorId := input.vendorId,
        liked := input.liked, score := input.score }
    if db.interactions.any fun r =>
        r.userId == input.userId && r.vendorId == input.vendorId then
      some (updated,
        { db with interactions := db.interactions.map fun r =>
            if r.userId == input.userId && r.vendorId == input.vendorId then
              { r with liked := input.liked, score := input.score }
            else r })
    else
      some (updated, { db with interactions := db.interactions ++ [updated] })
  else none

/-- C10. When user and vendor exist and an interaction row for the pair is
already stored, the upsert is an update: the table keeps its size, the
returned record carries the input's `liked` and `score`, and every stored
row for the pair now has `liked` equal to the input value and `score` equal
to the input score — `none` (null) when the rating was omitted, so a
previously stored rating is cleared, not preserved. -/
theorem upsertInteraction_overwrites (db : CatalogDb) (input : InteractionInput)
    (hu : input.userId ∈ db.userIds) (hv : input.vendorId ∈ db.vendorIds)
    (hex : ∃ r ∈ db.interactions,
      r.userId = input.userId ∧ r.vendorId = input.vendorId) :
    ∃ db2, upsertInteraction db input =
        some ({ userId := input.userId, vendorId := input.vendorId,
                liked := input.liked, score := input.score }, db2) ∧
      db2.interactions.length = db.interactions.length ∧
      ∀ r ∈ db2.interactions,
        r.userId = input.userId → r.vendorId = input.vendorId →
          r.liked = input.liked ∧ r.score = input.score := by
  have hany : (db.interactions.any fun r =>
      r.userId == input.userId && r.vendorId == input.vendorId) = true := by
    obtain ⟨r, hr, h1, h2⟩ := hex
    exact List.any_eq_true.mpr ⟨r, hr, by simp [h1, h2]⟩
  refine ⟨{ db with interactions := db.interactions.map fun r =>
      if r.userId == input.userId && r.vendorId == input.vendorId then
        { r with liked := input.liked, score := input.score }
      else r }, ?_, ?_, ?_⟩
  · simp [upsertInteraction, hu, hv, hany]
  · simp
  · intro r hr h1 h2
    obtain ⟨r0, hr0, heq⟩ := List.mem_map.mp hr
    by_cases hmatch :
        (r0.userId == input.userId && r0.vendorId == input.vendorId) = true
    · rw [if_pos hmatch] at heq
      rw [← heq]
      exact ⟨rfl, rfl⟩
    · rw [if_neg hmatch] at heq
      exfalso
      apply hmatch
      rw [heq]
      simp [h1, h2]

/-- Witness for C10: the stored row (user 1, vendor 2) has `liked = false`
and rating 5; upserting with `liked = true` and no rating overwrites the
flag and clears the rating to null. -/
theorem upsertInteraction_overwrites_witness :
    (1 ∈ ([1] : List ℕ)) ∧ (2 ∈ ([2] : List ℕ)) ∧
      (∃ r ∈ [(⟨1, 2, false, some 5⟩ : Interaction)],
        r.userId = 1 ∧ r.vendorId = 2) ∧
      ∃ db2, upsertInteraction ⟨[1], [2], [⟨1, 2, false, some 5⟩]⟩ ⟨1, 2, true, none⟩ =
          some ({ userId := 1, vendorId := 2, liked := true, score := none }, db2) ∧
        db2.interactions.length =
          (⟨[1], [2], [⟨1, 2, false, some 5⟩]⟩ : CatalogDb).interactions.length ∧
        ∀ r ∈ db2.interactions, r.userId = 1 → r.vendorId = 2 →
          r.liked = true ∧ r.score = none :=
  ⟨by simp, by simp, ⟨⟨1, 2, false, some 5⟩, by simp⟩,
    upsertInteraction_overwrites ⟨[1], [2], [⟨1, 2, false, some 5⟩]⟩ ⟨1, 2, true, none⟩
      (by simp) (by simp) ⟨⟨1, 2, false, some 5⟩, by simp⟩⟩

end RecEngine
